import Mathlib

/-!
Verification of the ticket-orchestration daemon and its context-compaction
engine (scripts/claude-daemon.py and scripts/smart_context.py).

The Python code is shallowly embedded: message contents are lists of
characters (Python strings are sequences of code points), database rows are
structures, database tables are lists of rows, and each store-mutating
routine is a pure function from the old store to the new store.  External
collaborators (the agent subprocess, the secondary summarization call, SMTP,
broadcasting) appear only through the data they feed into the embedded
control flow: the stream of parsed events, the arrival of user-message rows,
and the elapsed-time reading used by the stuck check.  Usage-counter
accumulation and logging are omitted; no claim below concerns them.
-/

/-! # Definitions

## Context compactor (smart_context.py) -/

/-- Module-level token threshold from smart_context.py. -/
def MAX_TOTAL_TOKENS : Nat := 100000

/-- Budget for recent messages kept verbatim. -/
def RECENT_TOKENS_BUDGET : Nat := 50000

/-- Backlog size at which extraction is triggered. -/
def EXTRACTION_THRESHOLD : Nat := 50000

/-- Messages estimated above this many tokens are truncated. -/
def MAX_SINGLE_MESSAGE : Nat := 10000

/-- SmartContextManager.count_tokens: the 4-characters-per-token estimate,
`len(text) // 4`. -/
def count_tokens (text : List Char) : Nat := text.length / 4

/-- The notice inserted between the kept head and tail of a truncated
message: `\n\n[... truncated {n} tokens ...]\n\n`. -/
def truncationMarker (n : Nat) : List Char :=
  ("\n\n[... truncated " ++ toString n ++ " tokens ...]\n\n").data

/-- SmartContextManager.truncate_message.  `char_limit * 2 / 5` models
Python's `int(char_limit * 0.4)`; at the only call-site cap (10000 tokens,
so `char_limit = 40000`) the float product rounds to exactly 16000, matching
the integer arithmetic here.  `content[-keep:]` with `keep = 0` is the whole
string in Python, hence the guard on `keep`. -/
def truncate_message (content : List Char) (max_tokens : Nat) : List Char :=
  if content = [] then content
  else
    let tokens := count_tokens content
    if tokens ≤ max_tokens then content
    else
      let char_limit := max_tokens * 4
      let keep := char_limit * 2 / 5
      let first_part := content.take keep
      let last_part := if keep = 0 then content else content.drop (content.length - keep)
      first_part ++ truncationMarker (tokens - max_tokens) ++ last_part

/-- One row of `conversation_messages` as read by the compactor. -/
structure Msg where
  id : Nat
  content : List Char
  token_count : Nat
  is_summarized : Bool
deriving DecidableEq

/-- The in-memory token fill in get_smart_history: rows whose stored
`token_count` is missing or zero get the character-based estimate. -/
def fillToken (m : Msg) : Msg :=
  if m.token_count = 0 then { m with token_count := count_tokens m.content } else m

/-- The per-message treatment inside the recent-window loop: a message whose
(filled) token count exceeds the single-message cap has its content
truncated and contributes exactly the cap to the budget; any other message
is used as-is with its own token count. -/
def capMsg (m : Msg) : Msg × Nat :=
  if m.token_count > MAX_SINGLE_MESSAGE then
    ({ m with content := truncate_message m.content MAX_SINGLE_MESSAGE }, MAX_SINGLE_MESSAGE)
  else (m, m.token_count)

/-- The newest-to-oldest accumulation loop of get_smart_history, applied to
the reversed unsummarized list: stop as soon as adding the next message
would push the running total over the recent budget. -/
def selectRecentRev : List Msg → Nat → List Msg
  | [], _ => []
  | m :: rest, acc =>
    let c := capMsg m
    if acc + c.2 > RECENT_TOKENS_BUDGET then []
    else c.1 :: selectRecentRev rest (acc + c.2)

/-- The persisted part of a `conversation_extractions` row that the control
flow determines (the summary fields themselves come from the external
secondary-model call and are not modelled). -/
structure Extraction where
  covers_msg_from_id : Option Nat
  covers_msg_to_id : Option Nat
  messages_summarized : Nat
deriving DecidableEq

/-- The flag update applied by create_extraction: rows whose id is in the
covered id list get `is_summarized = TRUE`. -/
def markIf (ids : List Nat) (m : Msg) : Msg :=
  if m.id ∈ ids then { m with is_summarized := true } else m

/-- SmartContextManager.create_extraction, restricted to its database
effect: insert the extraction row covering the first-to-last ids of the
summarized batch, and set `is_summarized = TRUE` on every covered row whose
id is truthy (Python filters falsy ids out of the UPDATE). -/
def create_extraction (older : List Msg) (store : List Msg) : List Msg × Extraction :=
  let ids := (older.map Msg.id).filter (fun i => i ≠ 0)
  (store.map (markIf ids),
   ⟨older.head?.map Msg.id, older.getLast?.map Msg.id, older.length⟩)

/-- Result of get_smart_history: the returned working history, the state of
the message table afterwards, and the extraction row created, if any. -/
structure SmartResult where
  recent : List Msg
  store : List Msg
  extraction : Option Extraction
deriving DecidableEq

/-- The ticket's unsummarized messages in insertion order, with the
in-memory token fill applied. -/
def unsummarizedOf (store : List Msg) : List Msg :=
  (store.filter (fun m => !m.is_summarized)).map fillToken

/-- Total estimated tokens of a message list, as summed by
get_smart_history. -/
def totalTokens (l : List Msg) : Nat := (l.map Msg.token_count).sum

/-- The local variable `recent` of get_smart_history: the newest suffix
fitting the recent budget (built front-first from the reversed list). -/
def recentOf (store : List Msg) : List Msg :=
  (selectRecentRev (unsummarizedOf store).reverse 0).reverse

/-- The local variable `older_messages` of get_smart_history:
`unsummarized_messages[:-len(recent)]` when `recent` is nonempty, the whole
unsummarized list otherwise. -/
def olderOf (store : List Msg) : List Msg :=
  if recentOf store = [] then unsummarizedOf store
  else (unsummarizedOf store).take
    ((unsummarizedOf store).length - (recentOf store).length)

/-- SmartContextManager.get_smart_history: fetch unsummarized messages, fill
token counts, return them all when under the extraction threshold, and
otherwise keep the newest suffix fitting the recent budget and extract the
older remainder (marking it summarized). -/
def get_smart_history (store : List Msg) : SmartResult :=
  let unsum := unsummarizedOf store
  if unsum = [] then ⟨[], store, none⟩
  else if totalTokens unsum < EXTRACTION_THRESHOLD then ⟨unsum, store, none⟩
  else
    let recent := recentOf store
    if recent.length < unsum.length then
      let older := olderOf store
      if older = [] then ⟨recent, store, none⟩
      else ⟨recent, (create_extraction older store).1, some (create_extraction older store).2⟩
    else ⟨recent, store, none⟩

/-- A message's contribution to the recent-budget arithmetic: its token
estimate, capped at the single-message maximum. -/
def contribution (m : Msg) : Nat := min m.token_count MAX_SINGLE_MESSAGE

/-- The ids of a message list, in order. -/
def msgIds (l : List Msg) : List Nat := l.map Msg.id

/-- The ids currently flagged `is_summarized = TRUE` in a message table. -/
def summarizedIds (store : List Msg) : List Nat :=
  (store.filter (fun m => m.is_summarized)).map Msg.id

/-! ## Project knowledge (smart_context.py) -/

/-- One `project_knowledge` row; list items are modelled as strings (the
JSON arrays the code merges hold the extraction's string items). -/
structure ProjectKnowledge where
  known_gotchas : List String
  error_solutions : List String
  architecture_decisions : List String
  learned_from_tickets : List Nat
deriving DecidableEq

/-- The merge loop of _update_project_knowledge_from_extraction: walk the
first 10 new items and append each one that is truthy (nonempty) and not
already present. -/
def mergeItems (existing : List String) (newItems : List String) : List String :=
  (newItems.take 10).foldl
    (fun acc n => if n ≠ "" ∧ n ∉ acc then acc ++ [n] else acc) existing

/-- Python's `l[-n:]`: the suffix of the last `n` entries (the whole list
when shorter). -/
def lastN (n : Nat) (l : List α) : List α := l.drop (l.length - n)

/-- SmartContextManager._update_project_knowledge_from_extraction: create a
fresh row seeded from the extraction's first 10 items when none exists,
otherwise merge the new items into the parsed existing lists and keep the
last 20 entries (last 50 contributing tickets). -/
def update_project_knowledge_from_extraction (knowledge : Option ProjectKnowledge)
    (ticket_id : Nat) (decisions problems important_notes : List String) :
    ProjectKnowledge :=
  match knowledge with
  | none =>
    ⟨important_notes.take 10, problems.take 10, decisions.take 10, [ticket_id]⟩
  | some kk =>
    let g := mergeItems kk.known_gotchas important_notes
    let e := mergeItems kk.error_solutions problems
    let d := mergeItems kk.architecture_decisions decisions
    let t := if ticket_id ∈ kk.learned_from_tickets then kk.learned_from_tickets
             else kk.learned_from_tickets ++ [ticket_id]
    ⟨lastN 20 g, lastN 20 e, lastN 20 d, lastN 50 t⟩

/-! ## Daemon (claude-daemon.py) -/

/-- Stuck timeout, in minutes. -/
def STUCK_TIMEOUT_MINUTES : Nat := 30

/-- Seven days in seconds, for `DATE_ADD(NOW(), INTERVAL 7 DAY)`. -/
def SEVEN_DAYS : Nat := 7 * 24 * 60 * 60

/-- One `user_messages` inbox row. -/
structure UserMsg where
  id : Nat
  content : List Char
  processed : Bool
deriving DecidableEq

/-- Python str.strip(): remove whitespace from both ends. -/
def pyStrip (s : List Char) : List Char :=
  ((s.dropWhile Char.isWhitespace).reverse.dropWhile Char.isWhitespace).reverse

/-- ProjectWorker.get_pending_user_messages: fetch the unprocessed rows for
the ticket (in insertion order) and mark every fetched row processed. -/
def get_pending_user_messages (inbox : List UserMsg) : List UserMsg × List UserMsg :=
  let pending := inbox.filter (fun m => !m.processed)
  let ids := pending.map UserMsg.id
  (pending,
   if pending = [] then inbox
   else inbox.map (fun m => if m.id ∈ ids then { m with processed := true } else m))

/-- The three control commands recognized in run_claude. -/
inductive Cmd where
  | skipCmd
  | doneCmd
  | stopCmd
deriving DecidableEq

/-- Classify one inbox message's stripped content. -/
def parseCmd (content : List Char) : Option Cmd :=
  let c := pyStrip content
  if c = "/skip".data then some Cmd.skipCmd
  else if c = "/done".data then some Cmd.doneCmd
  else if c = "/stop".data then some Cmd.stopCmd
  else none

/-- The command for-loop of run_claude: return at the first control command
in fetch order; messages with any other content are passed over with no
action. -/
def firstCommand : List UserMsg → Option Cmd
  | [] => none
  | m :: rest =>
    match parseCmd m.content with
    | some c => some c
    | none => firstCommand rest

/-- A conversation message persisted during a run (role, stored content,
tool name for tool_use rows). -/
structure SavedMsg where
  role : String
  content : Option (List Char)
  tool_name : Option (List Char)
deriving DecidableEq

/-- The content transformation of ProjectWorker.save_message:
`content[:50000] if content else None` — absent or empty content is stored
as NULL, anything else is cut at 50,000 characters. -/
def storedContent (content : Option (List Char)) : Option (List Char) :=
  match content with
  | none => none
  | some c => if c = [] then none else some (c.take 50000)

/-- A content block of an `assistant` event. -/
inductive Block where
  | text (t : List Char)
  | toolUse (name : List Char)
deriving DecidableEq

/-- The text accumulated over an assistant event's blocks
(`content += block['text']`). -/
def assistantContent (blocks : List Block) : List Char :=
  (blocks.map (fun b => match b with | Block.text t => t | Block.toolUse _ => [])).flatten

/-- One parsed line of the agent process's output stream.  `raw` stands for
a line that is not valid JSON (logged verbatim, otherwise ignored). -/
inductive Event where
  | assistant (blocks : List Block)
  | result (r : List Char)
  | error (msg : List Char)
  | raw (line : List Char)
deriving DecidableEq

/-- The literal completion marker searched for in assistant text. -/
def completionMarker : List Char := "TASK COMPLETED".data

/-- Python's `needle in haystack` on strings: contiguous-substring test. -/
def hasInfix (needle : List Char) : List Char → Bool
  | [] => needle.isEmpty
  | c :: rest => needle.isPrefixOf (c :: rest) || hasInfix needle rest

/-- The case-insensitive marker check: `'TASK COMPLETED' in content.upper()`. -/
def containsCompletionMarker (content : List Char) : Bool :=
  hasInfix completionMarker (content.map Char.toUpper)

/-- The possible outcomes of ProjectWorker.run_claude. -/
inductive RunResult where
  | skipped
  | completed
  | interrupted
  | stopped
  | stuck
  | success
  | failed
deriving DecidableEq

/-- ProjectWorker.parse_claude_output: the messages persisted for one line
and the returned value (`'completed'` when a nonempty assistant text
contains the marker, `None` otherwise). -/
def parseEvent : Option Event → List SavedMsg × Option RunResult
  | none => ([], none)
  | some (Event.assistant blocks) =>
    let toolMsgs := blocks.filterMap (fun b =>
      match b with
      | Block.toolUse name => some ⟨"tool_use", none, some name⟩
      | Block.text _ => none)
    let content := assistantContent blocks
    if content = [] then (toolMsgs, none)
    else (toolMsgs ++ [⟨"assistant", storedContent (some content), none⟩],
          if containsCompletionMarker content then some RunResult.completed else none)
  | some (Event.result r) =>
    ([⟨"tool_result", storedContent (some (r.take 5000)), none⟩], none)
  | some (Event.error msg) =>
    ([⟨"system", storedContent (some ("Error: ".data ++ msg)), none⟩], none)
  | some (Event.raw _) => ([], none)

/-- One iteration of run_claude's read loop, as seen from the worker:
the user-message rows inserted since the previous poll, the combined
worker/daemon running flag, whether readline returned nothing with the
process already exited, the parsed line (if a line was read), and the
elapsed seconds since the last persisted activity at the stuck check. -/
structure Step where
  arrivals : List UserMsg
  running : Bool
  eof : Bool
  event : Option Event
  stuckSeconds : Nat
deriving DecidableEq

/-- What a run leaves behind: its outcome, the inbox state, the
conversation messages persisted during the run, and how many stuck
notifications were sent. -/
structure RunOut where
  result : RunResult
  inbox : List UserMsg
  saved : List SavedMsg
  emails : Nat
deriving DecidableEq

/-- run_claude's final `return result if result else ('success' if
returncode == 0 else 'failed')`. -/
def finalResult (acc : Option RunResult) (rc : Int) : RunResult :=
  match acc with
  | some r => r
  | none => if rc = 0 then RunResult.success else RunResult.failed

/-- ProjectWorker.run_claude's read loop.  Each iteration polls the inbox
(marking everything fetched processed and returning at the first control
command), then checks the stop flag, then breaks on end-of-stream, then
parses the line (persisting messages, remembering a seen completion
marker), then terminates with `stuck` when the inactivity window is
exceeded; exhausting the script stands for the stream ending. -/
def runClaude : List Step → List UserMsg → Option RunResult → List SavedMsg → Nat → Int → RunOut
  | [], inbox, acc, saved, emails, rc => ⟨finalResult acc rc, inbox, saved, emails⟩
  | s :: rest, inbox, acc, saved, emails, rc =>
    let polled := get_pending_user_messages (inbox ++ s.arrivals)
    match firstCommand polled.1 with
    | some Cmd.skipCmd => ⟨RunResult.skipped, polled.2, saved, emails⟩
    | some Cmd.doneCmd => ⟨RunResult.completed, polled.2, saved, emails⟩
    | some Cmd.stopCmd => ⟨RunResult.interrupted, polled.2, saved, emails⟩
    | none =>
      if s.running then
        if s.eof then ⟨finalResult acc rc, polled.2, saved, emails⟩
        else
          let pe := parseEvent s.event
          let acc2 := match pe.2 with | some r => some r | none => acc
          let saved2 := saved ++ pe.1
          if s.stuckSeconds > STUCK_TIMEOUT_MINUTES * 60 then
            ⟨RunResult.stuck, polled.2, saved2, emails + 1⟩
          else runClaude rest polled.2 acc2 saved2 emails rc
      else ⟨RunResult.stopped, polled.2, saved, emails⟩

/-- The columns of a `tickets` row that the worker's transitions touch. -/
structure Ticket where
  status : String
  result_summary : Option (List Char)
  review_deadline : Option Nat
deriving DecidableEq

/-- The result-summary transformation of update_ticket:
`result[:1000] if result else None`. -/
def summaryContent (result : Option (List Char)) : Option (List Char) :=
  match result with
  | none => none
  | some c => if c = [] then none else some (c.take 1000)

/-- ProjectWorker.update_ticket: a requested status of `'done'` is stored
as `awaiting_input` with a review deadline seven days ahead; any other
status is stored as given (leaving the deadline untouched). -/
def update_ticket (t : Ticket) (status : String) (result : Option (List Char))
    (now : Nat) : Ticket :=
  if status = "done" then
    { t with status := "awaiting_input", result_summary := summaryContent result,
             review_deadline := some (now + SEVEN_DAYS) }
  else
    { t with status := status, result_summary := summaryContent result }

/-- `str(result)` for the branch of process_ticket that records an
unrecognized run result on a failed ticket. -/
def runResultStr : RunResult → List Char
  | RunResult.skipped => "skipped".data
  | RunResult.completed => "completed".data
  | RunResult.interrupted => "interrupted".data
  | RunResult.stopped => "stopped".data
  | RunResult.stuck => "stuck".data
  | RunResult.success => "success".data
  | RunResult.failed => "failed".data

/-- What one turn of process_ticket's outcome dispatch does: either loop
again (carrying the freshly fetched feedback) or finish, updating the
ticket and ending the session with the given status. -/
inductive LoopStep where
  | continueWith (feedback : List UserMsg)
  | finished (t : Ticket) (sessionStatus : String)
deriving DecidableEq

/-- The branch on run_claude's result at the bottom of
ProjectWorker.process_ticket.  `pendingAfter` is what the fresh
get_pending_user_messages call returns after the run (relevant to the
`interrupted` and `completed` branches). -/
def process_ticket_outcome (r : RunResult) (pendingAfter : List UserMsg)
    (t : Ticket) (now : Nat) : LoopStep :=
  match r with
  | RunResult.interrupted =>
    if pendingAfter = [] then
      LoopStep.finished (update_ticket t "open" none now) "stopped"
    else LoopStep.continueWith pendingAfter
  | RunResult.completed =>
    if pendingAfter = [] then
      LoopStep.finished
        (update_ticket t "done" (some ("Completed successfully".data)) now) "completed"
    else LoopStep.continueWith pendingAfter
  | RunResult.skipped =>
    LoopStep.finished (update_ticket t "open" none now) "skipped"
  | RunResult.stuck =>
    LoopStep.finished (update_ticket t "stuck" none now) "stuck"
  | RunResult.stopped =>
    LoopStep.finished (update_ticket t "pending" none now) "stopped"
  | r => LoopStep.finished (update_ticket t "failed" (some (runResultStr r)) now) "failed"

/-- A run-loop iteration that neither carries a control command nor stops
the run from outside: its arrivals hold no command, the stop flag is not
set, and the inactivity window is not exceeded. -/
def Benign (s : Step) : Prop :=
  (∀ m ∈ s.arrivals, parseCmd m.content = none) ∧ s.running = true ∧
    s.stuckSeconds ≤ STUCK_TIMEOUT_MINUTES * 60

/-- No unprocessed inbox row carries a control command. -/
def NoCmdPending (inbox : List UserMsg) : Prop :=
  ∀ m ∈ inbox, m.processed = false → parseCmd m.content = none

/-- One `conversation_messages` row as inserted by the worker. -/
structure ConvRow where
  ticket_id : Nat
  session_id : Option Nat
  role : String
  content : Option (List Char)
  tool_name : Option (List Char)
  tool_input : Option (List Char)
  tokens : Nat
deriving DecidableEq

/-- The worker state touched by save_message. -/
structure WorkerState where
  current_ticket_id : Option Nat
  current_session_id : Option Nat
  conversation : List ConvRow
  last_activity : Option Nat
deriving DecidableEq

/-- ProjectWorker.save_message: a no-op without a current ticket; otherwise
insert the row (content cut at 50,000 characters, empty content stored as
NULL, tool input stored as its serialized form) and refresh the activity
timestamp. -/
def save_message (st : WorkerState) (now : Nat) (role : String)
    (content : Option (List Char)) (tool_name : Option (List Char))
    (tool_input : Option (List Char)) (tokens : Nat) : WorkerState :=
  match st.current_ticket_id with
  | none => st
  | some tid =>
    { st with
      conversation := st.conversation ++
        [⟨tid, st.current_session_id, role, storedContent content, tool_name,
          tool_input, tokens⟩],
      last_activity := some now }

/-- The columns of a `tickets` row that startup recovery touches. -/
structure TicketRow where
  status : String
  updated_at : Nat
deriving DecidableEq

/-- The columns of an `execution_sessions` row that startup recovery
touches. -/
structure SessionRow where
  status : String
  ended_at : Option Nat
deriving DecidableEq

/-- The slice of the store that startup recovery reads and writes. -/
structure RecoveryStore where
  tickets : List TicketRow
  sessions : List SessionRow
deriving DecidableEq

/-- ClaudeDaemon.recover_orphaned_tickets: reset every `in_progress` ticket
to `open` and mark every `running` session `stuck`; the second component is
the total number of rows written (the summed UPDATE rowcounts). -/
def recover_orphaned_tickets (s : RecoveryStore) (now : Nat) : RecoveryStore × Nat :=
  let tickets2 := s.tickets.map (fun t =>
    if t.status = "in_progress" then { t with status := "open", updated_at := now } else t)
  let resetCount := (s.tickets.filter (fun t => t.status = "in_progress")).length
  let sessions2 := s.sessions.map (fun e =>
    if e.status = "running" then { e with status := "stuck", ended_at := some now } else e)
  let stuckCount := (s.sessions.filter (fun e => e.status = "running")).length
  (⟨tickets2, sessions2⟩, resetCount + stuckCount)

/-! ## Concrete instances used by witnesses and counterexamples -/

/-- The 48,000-character content used as the concrete C6 instance. -/
def c6content : List Char := List.replicate 48000 'a'

/-- Concrete instance for C6: a 48,000-character message. -/
def c6msg : Msg := ⟨7, c6content, 12000, false⟩

/-- A 44,000-character content whose estimate (11,000 tokens) exceeds the
single-message cap while staying under the extraction threshold. -/
def c3content : List Char := List.replicate 44000 'a'

/-- The single-message store refuting C3's truncation clause: one
unsummarized message whose stored token count (11,000) agrees with the
character estimate of its 44,000-character content. -/
def c3store : List Msg := [⟨1, c3content, 11000, false⟩]

/-- A one-message store for the C1 witness. -/
def c1store : List Msg := [⟨1, "abcd".data, 0, false⟩]

/-- A plain (non-command) inbox message for the C4 counterexample. -/
def c4msg : UserMsg := ⟨1, "hello".data, false⟩

/-- An uneventful run-loop iteration for the C4 counterexample. -/
def c4plainStep : Step := ⟨[], true, false, none, 0⟩

/-- An iteration whose poll finds a freshly arrived `/stop` message. -/
def c4stopStep : Step := ⟨[⟨2, "/stop".data, false⟩], true, false, none, 0⟩

/-- Assistant output carrying the completion marker, for the C5 witness. -/
def c5blocks : List Block := [Block.text "All done. TASK COMPLETED".data]

/-- The iteration that reads the marker-carrying assistant line. -/
def c5step : Step := ⟨[], true, false, some (Event.assistant c5blocks), 0⟩

/-- An in-progress ticket row used by the C5 and C9 witnesses. -/
def c5ticket : Ticket := ⟨"in_progress", none, none⟩

/-- An iteration past the 1800-second stuck window, for the C9 witness. -/
def c9step : Step := ⟨[], true, false, none, 1801⟩

/-- A duplicate-free knowledge row for the C8 amended witness. -/
def c8knowledge : ProjectKnowledge := ⟨["g1"], ["e1"], ["d1"], [3]⟩

/-- A worker state holding a current ticket, for the C10 theorems. -/
def c10state : WorkerState := ⟨some 1, some 2, [], none⟩

/-! # Theorems -/

/-! ## Compactor basics -/

theorem fillToken_id (m : Msg) : (fillToken m).id = m.id := by
  unfold fillToken; split <;> rfl

theorem fillToken_content (m : Msg) : (fillToken m).content = m.content := by
  unfold fillToken; split <;> rfl

theorem capMsg_fst_id (m : Msg) : (capMsg m).1.id = m.id := by
  unfold capMsg; split <;> rfl

theorem capMsg_fst_token (m : Msg) : (capMsg m).1.token_count = m.token_count := by
  unfold capMsg; split <;> rfl

theorem capMsg_snd_eq_contribution (m : Msg) : (capMsg m).2 = contribution m := by
  unfold capMsg contribution
  split
  · next h => simp [Nat.min_eq_right (Nat.le_of_lt h)]
  · next h => simp [Nat.min_eq_left (Nat.le_of_not_lt h)]

theorem contribution_capMsg_fst (m : Msg) : contribution (capMsg m).1 = (capMsg m).2 := by
  rw [capMsg_snd_eq_contribution]
  unfold contribution
  rw [capMsg_fst_token]

theorem gsh_all_summarized (store : List Msg) (h0 : unsummarizedOf store = []) :
    get_smart_history store = ⟨[], store, none⟩ := by
  simp only [get_smart_history]
  rw [if_pos h0]

theorem gsh_under (store : List Msg) (h0 : unsummarizedOf store ≠ [])
    (h1 : totalTokens (unsummarizedOf store) < EXTRACTION_THRESHOLD) :
    get_smart_history store = ⟨unsummarizedOf store, store, none⟩ := by
  simp only [get_smart_history]
  rw [if_neg h0, if_pos h1]

theorem gsh_over_all_recent (store : List Msg) (h0 : unsummarizedOf store ≠ [])
    (h1 : ¬ totalTokens (unsummarizedOf store) < EXTRACTION_THRESHOLD)
    (h2 : ¬ (recentOf store).length < (unsummarizedOf store).length) :
    get_smart_history store = ⟨recentOf store, store, none⟩ := by
  simp only [get_smart_history]
  rw [if_neg h0, if_neg h1, if_neg h2]

theorem gsh_over_extract (store : List Msg) (h0 : unsummarizedOf store ≠ [])
    (h1 : ¬ totalTokens (unsummarizedOf store) < EXTRACTION_THRESHOLD)
    (h2 : (recentOf store).length < (unsummarizedOf store).length)
    (h3 : olderOf store ≠ []) :
    get_smart_history store =
      ⟨recentOf store, (create_extraction (olderOf store) store).1,
        some (create_extraction (olderOf store) store).2⟩ := by
  simp only [get_smart_history]
  rw [if_neg h0, if_neg h1, if_pos h2, if_neg h3]

theorem gsh_over_older_nil (store : List Msg) (h0 : unsummarizedOf store ≠ [])
    (h1 : ¬ totalTokens (unsummarizedOf store) < EXTRACTION_THRESHOLD)
    (h2 : (recentOf store).length < (unsummarizedOf store).length)
    (h3 : olderOf store = []) :
    get_smart_history store = ⟨recentOf store, store, none⟩ := by
  simp only [get_smart_history]
  rw [if_neg h0, if_neg h1, if_pos h2, if_pos h3]

theorem selectRecentRev_budget (l : List Msg) (acc : Nat)
    (h : acc ≤ RECENT_TOKENS_BUDGET) :
    acc + ((selectRecentRev l acc).map contribution).sum ≤ RECENT_TOKENS_BUDGET := by
  induction l generalizing acc with
  | nil => simpa using h
  | cons m rest ih =>
    unfold selectRecentRev
    by_cases hb : acc + (capMsg m).2 > RECENT_TOKENS_BUDGET
    · simpa [hb] using h
    · have hle : acc + (capMsg m).2 ≤ RECENT_TOKENS_BUDGET := Nat.le_of_not_lt hb
      have := ih (acc + (capMsg m).2) hle
      simp only [hb, if_false, List.map_cons, List.sum_cons, contribution_capMsg_fst]
      omega

theorem contribution_le_token (m : Msg) : contribution m ≤ m.token_count :=
  Nat.min_le_left _ _

theorem recentOf_budget (store : List Msg) :
    ((recentOf store).map contribution).sum ≤ RECENT_TOKENS_BUDGET := by
  have hbase := selectRecentRev_budget ((unsummarizedOf store).reverse) 0 (by norm_num)
  unfold recentOf
  rw [List.map_reverse, List.sum_reverse]
  simpa using hbase

/-- C2: the recent messages returned by the history builder always fit the
50,000-token recent budget, counting each message at its token estimate
capped at the 10,000-token single-message maximum (a message above the cap
is truncated and charged exactly the cap). -/
theorem C2_recent_budget (store : List Msg) :
    (((get_smart_history store).recent).map contribution).sum ≤ RECENT_TOKENS_BUDGET := by
  by_cases h0 : unsummarizedOf store = []
  · rw [gsh_all_summarized store h0]
    simp
  · by_cases h1 : totalTokens (unsummarizedOf store) < EXTRACTION_THRESHOLD
    · rw [gsh_under store h0 h1]
      have hpt : ∀ m ∈ unsummarizedOf store, contribution m ≤ m.token_count :=
        fun m _ => contribution_le_token m
      have hsum := List.sum_le_sum hpt
      have he : EXTRACTION_THRESHOLD = RECENT_TOKENS_BUDGET := rfl
      unfold totalTokens at h1
      rw [he] at h1
      exact le_trans hsum (Nat.le_of_lt h1)
    · by_cases h2 : (recentOf store).length < (unsummarizedOf store).length
      · by_cases h3 : olderOf store = []
        · rw [gsh_over_older_nil store h0 h1 h2 h3]
          exact recentOf_budget store
        · rw [gsh_over_extract store h0 h1 h2 h3]
          exact recentOf_budget store
      · rw [gsh_over_all_recent store h0 h1 h2]
        exact recentOf_budget store

/-- C6: a message estimated at 12,000 tokens against the 10,000-token cap is
replaced by the first 16,000 characters of the original (40% of the cap's
40,000-character budget), the truncated-2000-tokens marker, and the last
16,000 characters, while its contribution to the budget arithmetic is
exactly the 10,000-token cap. -/
theorem C6_truncation (m : Msg) (h1 : m.token_count = 12000)
    (h2 : count_tokens m.content = 12000) :
    capMsg m = ({ m with content := m.content.take 16000 ++ truncationMarker 2000 ++ m.content.drop (m.content.length - 16000) }, MAX_SINGLE_MESSAGE) ∧
      (capMsg m).2 = 10000 := by
  have hlen : 48000 ≤ m.content.length := by
    unfold count_tokens at h2
    omega
  have hne : m.content ≠ [] := by
    intro h
    rw [h] at hlen
    simp at hlen
  have hgt : m.token_count > MAX_SINGLE_MESSAGE := by
    rw [h1]
    norm_num [MAX_SINGLE_MESSAGE]
  have htr : truncate_message m.content MAX_SINGLE_MESSAGE =
      m.content.take 16000 ++ truncationMarker 2000 ++
        m.content.drop (m.content.length - 16000) := by
    simp only [truncate_message, h2, hne, if_false, ite_false]
    have e1 : MAX_SINGLE_MESSAGE * 4 * 2 / 5 = 16000 := by norm_num [MAX_SINGLE_MESSAGE]
    have e2 : 12000 - MAX_SINGLE_MESSAGE = 2000 := by norm_num [MAX_SINGLE_MESSAGE]
    have e3 : ¬ (12000 ≤ MAX_SINGLE_MESSAGE) := by norm_num [MAX_SINGLE_MESSAGE]
    rw [if_neg e3, e1, e2]
    rw [if_neg (by norm_num : ¬ (16000 = 0))]
  constructor
  · unfold capMsg
    rw [if_pos hgt, htr]
  · unfold capMsg
    rw [if_pos hgt]
    rfl

theorem c6content_length : c6content.length = 48000 :=
  List.length_replicate 48000 'a'

theorem c6msg_tokens : count_tokens c6msg.content = 12000 := by
  rw [show c6msg.content = c6content from rfl, count_tokens, c6content_length]

theorem C6_truncation_witness :
    c6msg.token_count = 12000 ∧ count_tokens c6msg.content = 12000 ∧
      capMsg c6msg = ({ c6msg with content := c6msg.content.take 16000 ++ truncationMarker 2000 ++ c6msg.content.drop (c6msg.content.length - 16000) }, MAX_SINGLE_MESSAGE) :=
  ⟨rfl, c6msg_tokens, (C6_truncation c6msg rfl c6msg_tokens).1⟩

/-! ## Id bookkeeping for the partition invariant (C1) -/

theorem msgIds_unsummarizedOf (store : List Msg) :
    msgIds (unsummarizedOf store) =
      msgIds (store.filter (fun m => !m.is_summarized)) := by
  unfold msgIds unsummarizedOf
  rw [List.map_map]
  exact List.map_congr_left (fun m _ => fillToken_id m)

theorem nodup_msgIds_unsummarizedOf (store : List Msg)
    (hnd : (store.map Msg.id).Nodup) : (msgIds (unsummarizedOf store)).Nodup := by
  rw [msgIds_unsummarizedOf]
  exact hnd.sublist ((List.filter_sublist store).map Msg.id)

theorem selectRecentRev_length_le (l : List Msg) (acc : Nat) :
    (selectRecentRev l acc).length ≤ l.length := by
  induction l generalizing acc with
  | nil => simp [selectRecentRev]
  | cons m rest ih =>
    unfold selectRecentRev
    by_cases hb : acc + (capMsg m).2 > RECENT_TOKENS_BUDGET
    · simp [hb]
    · simp only [hb, if_false, List.length_cons]
      exact Nat.succ_le_succ (ih _)

theorem selectRecentRev_ids (l : List Msg) (acc : Nat) :
    msgIds (selectRecentRev l acc) = (msgIds l).take (selectRecentRev l acc).length := by
  induction l generalizing acc with
  | nil => simp [selectRecentRev, msgIds]
  | cons m rest ih =>
    unfold selectRecentRev
    by_cases hb : acc + (capMsg m).2 > RECENT_TOKENS_BUDGET
    · simp [hb, msgIds]
    · simp only [hb, if_false]
      unfold msgIds
      simp only [List.map_cons, List.length_cons, List.take_succ_cons]
      rw [capMsg_fst_id]
      have := ih (acc + (capMsg m).2)
      unfold msgIds at this
      rw [this]

theorem recentOf_length_le (store : List Msg) :
    (recentOf store).length ≤ (unsummarizedOf store).length := by
  unfold recentOf
  rw [List.length_reverse]
  calc (selectRecentRev (unsummarizedOf store).reverse 0).length
      ≤ (unsummarizedOf store).reverse.length := selectRecentRev_length_le _ _
    _ = (unsummarizedOf store).length := List.length_reverse _

theorem recentOf_ids (store : List Msg) :
    msgIds (recentOf store) =
      (msgIds (unsummarizedOf store)).drop
        ((unsummarizedOf store).length - (recentOf store).length) := by
  unfold recentOf msgIds
  rw [List.map_reverse]
  have h1 := selectRecentRev_ids (unsummarizedOf store).reverse 0
  unfold msgIds at h1
  rw [h1]
  rw [show List.map Msg.id (unsummarizedOf store).reverse
        = (List.map Msg.id (unsummarizedOf store)).reverse from List.map_reverse _ _]
  rw [List.take_reverse, List.reverse_reverse, List.length_reverse, List.length_map]

theorem markIf_id (ids : List Nat) (m : Msg) : (markIf ids m).id = m.id := by
  unfold markIf; split <;> rfl

theorem markIf_summarized_of (ids : List Nat) (m : Msg)
    (h : m.is_summarized = true) : (markIf ids m).is_summarized = true := by
  unfold markIf
  split
  · rfl
  · exact h

theorem markIf_summarized_of_mem (ids : List Nat) (m : Msg) (h : m.id ∈ ids) :
    (markIf ids m).is_summarized = true := by
  unfold markIf
  rw [if_pos h]

theorem mem_summarizedIds_of (store : List Msg) (m : Msg) (hm : m ∈ store)
    (hs : m.is_summarized = true) : m.id ∈ summarizedIds store := by
  unfold summarizedIds
  exact List.mem_map_of_mem Msg.id (List.mem_filter.mpr ⟨hm, by simp [hs]⟩)

theorem mem_summarizedIds_markIf (store : List Msg) (ids : List Nat)
    (hnd : (store.map Msg.id).Nodup) (m : Msg) (hm : m ∈ store) :
    m.id ∈ summarizedIds (store.map (markIf ids)) ↔
      (m.is_summarized = true ∨ m.id ∈ ids) := by
  constructor
  · intro h
    unfold summarizedIds at h
    rcases List.mem_map.mp h with ⟨x, hx, hxid⟩
    rcases List.mem_filter.mp hx with ⟨hx1, hx2⟩
    rcases List.mem_map.mp hx1 with ⟨y, hy, hyx⟩
    have hyid : y.id = m.id := by rw [← hxid, ← hyx, markIf_id]
    have hym : y = m := List.inj_on_of_nodup_map hnd hy hm hyid
    subst hym
    by_cases hmem : y.id ∈ ids
    · right
      exact hmem
    · left
      have hxy : x = y := by
        rw [← hyx]
        unfold markIf
        rw [if_neg hmem]
      rw [← hxy]
      exact (by simpa using hx2)
  · intro h
    have hmark : (markIf ids m).is_summarized = true := by
      rcases h with hs | hmem
      · exact markIf_summarized_of ids m hs
      · exact markIf_summarized_of_mem ids m hmem
    have hmm : markIf ids m ∈ store.map (markIf ids) := List.mem_map_of_mem _ hm
    have := mem_summarizedIds_of _ _ hmm hmark
    rwa [markIf_id] at this

theorem map_markIf_nil (store : List Msg) : store.map (markIf []) = store := by
  have h : ∀ m ∈ store, markIf [] m = m := by
    intro m _
    unfold markIf
    simp
  rw [List.map_congr_left h]
  simp

theorem mem_summarizedIds_iff (store : List Msg)
    (hnd : (store.map Msg.id).Nodup) (m : Msg) (hm : m ∈ store) :
    m.id ∈ summarizedIds store ↔ m.is_summarized = true := by
  have h := mem_summarizedIds_markIf store [] hnd m hm
  rw [map_markIf_nil] at h
  simpa using h

theorem mem_msgIds_unsummarizedOf (store : List Msg) (m : Msg) (hm : m ∈ store)
    (hs : m.is_summarized = false) : m.id ∈ msgIds (unsummarizedOf store) := by
  rw [msgIds_unsummarizedOf]
  exact List.mem_map_of_mem Msg.id (List.mem_filter.mpr ⟨hm, by simp [hs]⟩)

theorem not_mem_msgIds_unsummarizedOf (store : List Msg)
    (hnd : (store.map Msg.id).Nodup) (m : Msg) (hm : m ∈ store)
    (hs : m.is_summarized = true) : m.id ∉ msgIds (unsummarizedOf store) := by
  rw [msgIds_unsummarizedOf]
  intro h
  rcases List.mem_map.mp h with ⟨x, hx, hxid⟩
  rcases List.mem_filter.mp hx with ⟨hx1, hx2⟩
  have hxm : x = m := List.inj_on_of_nodup_map hnd hx1 hm hxid
  subst hxm
  simp [hs] at hx2

theorem mem_unsummarizedOf_exists (store : List Msg) (m' : Msg)
    (h : m' ∈ unsummarizedOf store) : ∃ m ∈ store, m'.id = m.id := by
  unfold unsummarizedOf at h
  rcases List.mem_map.mp h with ⟨x, hx, hxm⟩
  exact ⟨x, (List.mem_filter.mp hx).1, by rw [← hxm, fillToken_id]⟩

theorem olderOf_eq_take (store : List Msg) :
    olderOf store = (unsummarizedOf store).take
      ((unsummarizedOf store).length - (recentOf store).length) := by
  unfold olderOf
  split
  · next h =>
    rw [h]
    simp
  · rfl

theorem olderOf_ne_nil (store : List Msg)
    (h2 : (recentOf store).length < (unsummarizedOf store).length) :
    olderOf store ≠ [] := by
  rw [olderOf_eq_take]
  intro h
  have hlen := congrArg List.length h
  simp [List.length_take] at hlen
  omega

theorem olderOf_ids (store : List Msg) :
    msgIds (olderOf store) =
      (msgIds (unsummarizedOf store)).take
        ((unsummarizedOf store).length - (recentOf store).length) := by
  rw [olderOf_eq_take]
  unfold msgIds
  rw [List.map_take]

theorem olderIds_filter (store : List Msg) (hnz : ∀ m ∈ store, m.id ≠ 0) :
    ((olderOf store).map Msg.id).filter (fun i => i ≠ 0) = (olderOf store).map Msg.id := by
  rw [List.filter_eq_self]
  intro a ha
  rcases List.mem_map.mp ha with ⟨m', hm', hid⟩
  have hsub : List.Sublist (olderOf store) (unsummarizedOf store) := by
    rw [olderOf_eq_take]
    exact List.take_sublist _ _
  rcases mem_unsummarizedOf_exists store m' (hsub.mem hm') with ⟨m, hm, hid2⟩
  subst hid
  simp only [decide_eq_true_eq]
  rw [hid2]
  exact hnz m hm

theorem nodup_take_not_mem_drop {l : List Nat} (h : l.Nodup) (j : Nat) :
    ∀ a ∈ l.take j, a ∉ l.drop j := by
  intro a ha hd
  have h2 := h
  rw [← List.take_append_drop j l] at h2
  rcases List.nodup_append.mp h2 with ⟨_, _, hdisj⟩
  exact hdisj ha hd

/-- C1: after one run of the history builder, the ids flagged
`is_summarized = TRUE` and the ids of the returned recent history partition
the ticket's message set: every stored message is in exactly one of the two
(ids are the distinct, nonzero primary keys of `conversation_messages`). -/
theorem C1_partition (store : List Msg)
    (hnd : (store.map Msg.id).Nodup) (hnz : ∀ m ∈ store, m.id ≠ 0) :
    ∀ m ∈ store,
      (m.id ∈ summarizedIds (get_smart_history store).store ∧
        m.id ∉ msgIds (get_smart_history store).recent) ∨
      (m.id ∉ summarizedIds (get_smart_history store).store ∧
        m.id ∈ msgIds (get_smart_history store).recent) := by
  intro m hm
  by_cases h0 : unsummarizedOf store = []
  · rw [gsh_all_summarized store h0]
    left
    constructor
    · have hfil : store.filter (fun m => !m.is_summarized) = [] := by
        unfold unsummarizedOf at h0
        exact List.map_eq_nil_iff.mp h0
      have hs : m.is_summarized = true := by
        have := List.filter_eq_nil_iff.mp hfil m hm
        simpa using this
      exact mem_summarizedIds_of store m hm hs
    · simp [msgIds]
  · by_cases h1 : totalTokens (unsummarizedOf store) < EXTRACTION_THRESHOLD
    · rw [gsh_under store h0 h1]
      by_cases hs : m.is_summarized = true
      · exact Or.inl ⟨mem_summarizedIds_of store m hm hs,
          not_mem_msgIds_unsummarizedOf store hnd m hm hs⟩
      · have hsf : m.is_summarized = false := by simpa using hs
        exact Or.inr ⟨fun h => hs ((mem_summarizedIds_iff store hnd m hm).mp h),
          mem_msgIds_unsummarizedOf store m hm hsf⟩
    · by_cases h2 : (recentOf store).length < (unsummarizedOf store).length
      · have h3 := olderOf_ne_nil store h2
        rw [gsh_over_extract store h0 h1 h2 h3]
        have hCE : (create_extraction (olderOf store) store).1 =
            store.map (markIf (((olderOf store).map Msg.id).filter (fun i => i ≠ 0))) := rfl
        rw [hCE, olderIds_filter store hnz]
        have hAeq : (olderOf store).map Msg.id =
            (msgIds (unsummarizedOf store)).take
              ((unsummarizedOf store).length - (recentOf store).length) := olderOf_ids store
        have hReq := recentOf_ids store
        have hnu : (msgIds (unsummarizedOf store)).Nodup :=
          nodup_msgIds_unsummarizedOf store hnd
        have hdisj := nodup_take_not_mem_drop hnu
          ((unsummarizedOf store).length - (recentOf store).length)
        by_cases hs : m.is_summarized = true
        · refine Or.inl ⟨(mem_summarizedIds_markIf store _ hnd m hm).mpr (Or.inl hs), ?_⟩
          rw [hReq]
          intro hmem
          exact not_mem_msgIds_unsummarizedOf store hnd m hm hs
            (List.drop_subset _ _ hmem)
        · have hsf : m.is_summarized = false := by simpa using hs
          have hmu : m.id ∈ msgIds (unsummarizedOf store) :=
            mem_msgIds_unsummarizedOf store m hm hsf
          rw [← List.take_append_drop
            ((unsummarizedOf store).length - (recentOf store).length)
            (msgIds (unsummarizedOf store))] at hmu
          rcases List.mem_append.mp hmu with hA | hB
          · refine Or.inl ⟨(mem_summarizedIds_markIf store _ hnd m hm).mpr
              (Or.inr (by rw [hAeq]; exact hA)), ?_⟩
            rw [hReq]
            exact hdisj m.id hA
          · refine Or.inr ⟨?_, by rw [hReq]; exact hB⟩
            intro h
            rcases (mem_summarizedIds_markIf store _ hnd m hm).mp h with hs' | hidmem
            · exact hs hs'
            · rw [hAeq] at hidmem
              exact hdisj m.id hidmem hB
      · rw [gsh_over_all_recent store h0 h1 h2]
        have hk : (recentOf store).length = (unsummarizedOf store).length :=
          Nat.le_antisymm (recentOf_length_le store) (Nat.le_of_not_lt h2)
        have hids : msgIds (recentOf store) = msgIds (unsummarizedOf store) := by
          rw [recentOf_ids, hk]
          simp
        by_cases hs : m.is_summarized = true
        · refine Or.inl ⟨mem_summarizedIds_of store m hm hs, ?_⟩
          rw [hids]
          exact not_mem_msgIds_unsummarizedOf store hnd m hm hs
        · have hsf : m.is_summarized = false := by simpa using hs
          refine Or.inr ⟨fun h => hs ((mem_summarizedIds_iff store hnd m hm).mp h), ?_⟩
          rw [hids]
          exact mem_msgIds_unsummarizedOf store m hm hsf

theorem C1_partition_witness :
    ((1 : Nat) ∈ summarizedIds (get_smart_history c1store).store ∧
      (1 : Nat) ∉ msgIds (get_smart_history c1store).recent) ∨
    ((1 : Nat) ∉ summarizedIds (get_smart_history c1store).store ∧
      (1 : Nat) ∈ msgIds (get_smart_history c1store).recent) :=
  C1_partition c1store (by decide) (by decide) ⟨1, "abcd".data, 0, false⟩ (by decide)

/-! ## Under-threshold behavior (C3) -/

theorem truncate_message_eq (c : List Char) (tk : Nat) (h2 : count_tokens c = tk)
    (hgt : ¬ tk ≤ MAX_SINGLE_MESSAGE) (hne : c ≠ []) :
    truncate_message c MAX_SINGLE_MESSAGE =
      c.take 16000 ++ truncationMarker (tk - MAX_SINGLE_MESSAGE) ++
        c.drop (c.length - 16000) := by
  simp only [truncate_message, h2, hne, if_false, ite_false]
  have e1 : MAX_SINGLE_MESSAGE * 4 * 2 / 5 = 16000 := by norm_num [MAX_SINGLE_MESSAGE]
  rw [if_neg hgt, e1, if_neg (by norm_num : ¬ (16000 = 0))]

theorem c3content_length : c3content.length = 44000 := List.length_replicate 44000 'a'

theorem c3content_tokens : count_tokens c3content = 11000 := by
  rw [count_tokens, c3content_length]

theorem c3content_ne_nil : c3content ≠ [] := by
  intro h
  have := congrArg List.length h
  rw [c3content_length] at this
  simp at this

theorem c3_truncated_form :
    truncate_message c3content MAX_SINGLE_MESSAGE =
      c3content.take 16000 ++ truncationMarker 1000 ++
        c3content.drop (c3content.length - 16000) := by
  have h := truncate_message_eq c3content 11000 c3content_tokens
    (by norm_num [MAX_SINGLE_MESSAGE]) c3content_ne_nil
  rw [h, show 11000 - MAX_SINGLE_MESSAGE = 1000 from by norm_num [MAX_SINGLE_MESSAGE]]

theorem c3_not_truncated :
    c3content ≠ truncate_message c3content MAX_SINGLE_MESSAGE := by
  intro h
  have hl := congrArg List.length h
  rw [c3_truncated_form, List.length_append, List.length_append, List.length_take,
    List.length_drop, c3content_length] at hl
  have hm : (truncationMarker 1000).length = 35 := rfl
  rw [hm] at hl
  omega

/-- C3 counterexample: with one unsummarized 11,000-token message (below the
50,000 extraction threshold), the history builder is in its under-threshold
branch and performs no extraction, but the returned message — whose estimate
exceeds the 10,000-token single-message cap — is NOT truncated: its content
is returned unchanged, not as the head+tail excerpt the claim requires. -/
theorem C3_cex :
    totalTokens (unsummarizedOf c3store) < EXTRACTION_THRESHOLD ∧
    (get_smart_history c3store).extraction = none ∧
    ¬ (∀ m ∈ (get_smart_history c3store).recent,
        MAX_SINGLE_MESSAGE < m.token_count →
        m.content = truncate_message m.content MAX_SINGLE_MESSAGE) := by
  have hu : unsummarizedOf c3store = [⟨1, c3content, 11000, false⟩] := rfl
  have htot : totalTokens (unsummarizedOf c3store) = 11000 := by
    rw [hu]
    rfl
  have hlt : totalTokens (unsummarizedOf c3store) < EXTRACTION_THRESHOLD := by
    rw [htot]
    norm_num [EXTRACTION_THRESHOLD]
  have hne : unsummarizedOf c3store ≠ [] := by
    rw [hu]
    simp
  have hg : get_smart_history c3store = ⟨unsummarizedOf c3store, c3store, none⟩ :=
    gsh_under c3store hne hlt
  refine ⟨hlt, by rw [hg], ?_⟩
  intro hall
  have hmem : (⟨1, c3content, 11000, false⟩ : Msg) ∈ (get_smart_history c3store).recent := by
    rw [hg, hu]
    exact List.mem_singleton.mpr rfl
  have hcap : MAX_SINGLE_MESSAGE < (⟨1, c3content, 11000, false⟩ : Msg).token_count := by
    norm_num [MAX_SINGLE_MESSAGE]
  exact c3_not_truncated (hall _ hmem hcap)

/-- C3 (amended): when the unsummarized backlog is under the extraction
threshold, the history builder returns all unsummarized messages as-is —
with filled token counts but contents unmodified (no per-message truncation
is applied in this branch) — performs no extraction, and leaves the message
table untouched. -/
theorem C3_amended_all_verbatim (store : List Msg)
    (h1 : totalTokens (unsummarizedOf store) < EXTRACTION_THRESHOLD) :
    (get_smart_history store).recent = unsummarizedOf store ∧
    (∀ m ∈ (get_smart_history store).recent, ∃ m0 ∈ store, m.content = m0.content) ∧
    (get_smart_history store).store = store ∧
    (get_smart_history store).extraction = none := by
  by_cases h0 : unsummarizedOf store = []
  · rw [gsh_all_summarized store h0]
    refine ⟨h0.symm, ?_, rfl, rfl⟩
    intro m hm
    simp at hm
  · rw [gsh_under store h0 h1]
    refine ⟨rfl, ?_, rfl, rfl⟩
    intro m hm
    rcases List.mem_map.mp hm with ⟨x, hx, hxm⟩
    exact ⟨x, (List.mem_filter.mp hx).1, by rw [← hxm, fillToken_content]⟩

theorem C3_amended_all_verbatim_witness :
    totalTokens (unsummarizedOf c1store) < EXTRACTION_THRESHOLD ∧
    (get_smart_history c1store).recent = unsummarizedOf c1store ∧
    (get_smart_history c1store).store = c1store ∧
    (get_smart_history c1store).extraction = none := by
  have h1 : totalTokens (unsummarizedOf c1store) < EXTRACTION_THRESHOLD := by decide
  have h := C3_amended_all_verbatim c1store h1
  exact ⟨h1, h.1, h.2.2.1, h.2.2.2⟩

/-! ## Startup recovery (C7) -/

theorem recover_no_targets (s : RecoveryStore) (now : Nat)
    (ht : ∀ t ∈ s.tickets, t.status ≠ "in_progress")
    (hs : ∀ e ∈ s.sessions, e.status ≠ "running") :
    recover_orphaned_tickets s now = (s, 0) := by
  simp only [recover_orphaned_tickets]
  have h1 : (s.tickets.map fun t =>
      if t.status = "in_progress" then { t with status := "open", updated_at := now }
      else t) = s.tickets := by
    have heq : ∀ t ∈ s.tickets,
        (if t.status = "in_progress" then { t with status := "open", updated_at := now }
         else t) = t := fun t htm => if_neg (ht t htm)
    rw [List.map_congr_left heq]
    simp
  have h2 : (s.sessions.map fun e =>
      if e.status = "running" then { e with status := "stuck", ended_at := some now }
      else e) = s.sessions := by
    have heq : ∀ e ∈ s.sessions,
        (if e.status = "running" then { e with status := "stuck", ended_at := some now }
         else e) = e := fun e hem => if_neg (hs e hem)
    rw [List.map_congr_left heq]
    simp
  have hf1 : s.tickets.filter (fun t => t.status = "in_progress") = [] :=
    List.filter_eq_nil_iff.mpr (fun t htm => by simpa using ht t htm)
  have hf2 : s.sessions.filter (fun e => e.status = "running") = [] :=
    List.filter_eq_nil_iff.mpr (fun e hem => by simpa using hs e hem)
  rw [h1, h2, hf1, hf2]
  rfl

/-- C7: startup recovery is idempotent — whatever the store, running it a
second time in a row writes zero rows and leaves the store exactly as the
first run left it (in particular, on a store with no `in_progress` tickets
and no `running` sessions the second run performs zero writes). -/
theorem C7_recovery_idempotent (s : RecoveryStore) (now1 now2 : Nat) :
    recover_orphaned_tickets (recover_orphaned_tickets s now1).1 now2 =
      ((recover_orphaned_tickets s now1).1, 0) := by
  apply recover_no_targets
  · intro t htm
    have hset : (recover_orphaned_tickets s now1).1.tickets = s.tickets.map fun t =>
        if t.status = "in_progress" then { t with status := "open", updated_at := now1 }
        else t := rfl
    rw [hset] at htm
    rcases List.mem_map.mp htm with ⟨t0, _, ht0⟩
    by_cases h : t0.status = "in_progress"
    · rw [← ht0, if_pos h]
      simp
    · rw [← ht0, if_neg h]
      exact h
  · intro e hem
    have hset : (recover_orphaned_tickets s now1).1.sessions = s.sessions.map fun e =>
        if e.status = "running" then { e with status := "stuck", ended_at := some now1 }
        else e := rfl
    rw [hset] at hem
    rcases List.mem_map.mp hem with ⟨e0, _, he0⟩
    by_cases h : e0.status = "running"
    · rw [← he0, if_pos h]
      simp
    · rw [← he0, if_neg h]
      exact h

/-! ## Message persistence (C10) -/

/-- C10 counterexample: with a current ticket set, persisting an EMPTY
string stores NULL, not the (empty) first-50,000-character cut the claim
requires — `content[:50000] if content else None` maps `''` to `None`. -/
theorem C10_cex :
    save_message c10state 5 "user" (some []) none none 0 =
      { c10state with conversation := [⟨1, some 2, "user", none, none, none, 0⟩], last_activity := some 5 } ∧
    (none : Option (List Char)) ≠ some (([] : List Char).take 50000) := by
  constructor
  · rfl
  · simp

/-- C10 (amended): with no current ticket the call changes nothing;
with a current ticket, nonempty content is stored cut at its first 50,000
characters (so content of at most 50,000 characters is stored unchanged),
while empty or absent content is stored as NULL. -/
theorem C10_amended_save_message (st : WorkerState) (now : Nat) (role : String)
    (content : Option (List Char)) (tool_name tool_input : Option (List Char))
    (tokens : Nat) :
    (st.current_ticket_id = none →
      save_message st now role content tool_name tool_input tokens = st) ∧
    (∀ tid, st.current_ticket_id = some tid → ∀ c, content = some c → c ≠ [] →
      save_message st now role content tool_name tool_input tokens =
        { st with conversation := st.conversation ++ [⟨tid, st.current_session_id, role, some (c.take 50000), tool_name, tool_input, tokens⟩], last_activity := some now }) ∧
    (∀ c, content = some c → c.length ≤ 50000 →
      storedContent content = if c = [] then none else some c) := by
  refine ⟨?_, ?_, ?_⟩
  · intro h
    unfold save_message
    rw [h]
  · intro tid h c hc hne
    unfold save_message
    rw [h]
    have hsc : storedContent content = some (c.take 50000) := by
      rw [hc]
      show (if c = [] then none else some (c.take 50000)) = some (c.take 50000)
      rw [if_neg hne]
    rw [hsc]
  · intro c hc hlen
    rw [hc]
    show (if c = [] then none else some (c.take 50000)) = if c = [] then none else some c
    by_cases hc2 : c = []
    · rw [if_pos hc2, if_pos hc2]
    · rw [if_neg hc2, if_neg hc2, List.take_of_length_le hlen]

theorem C10_amended_save_message_witness :
    save_message c10state 5 "user" (some ("hi".data)) none none 0 =
      { c10state with conversation := [⟨1, some 2, "user", some ("hi".data.take 50000), none, none, 0⟩], last_activity := some 5 } :=
  (C10_amended_save_message c10state 5 "user" (some ("hi".data)) none none 0).2.1
    1 rfl "hi".data rfl (by decide)

/-! ## Knowledge merging (C8) -/

/-- C8 counterexample: the creation path of the knowledge update seeds the
gotcha list directly from the extraction's first 10 notes with NO
de-duplication — merging notes `["x", "x"]` into a project with no existing
knowledge row leaves an exact duplicate in the stored list. -/
theorem C8_cex :
    ¬ (update_project_knowledge_from_extraction none 1 [] [] ["x", "x"]).known_gotchas.Nodup := by
  decide

theorem nodup_append_singleton {α : Type} {l : List α} {a : α}
    (h : l.Nodup) (ha : a ∉ l) : (l ++ [a]).Nodup := by
  rw [List.nodup_append]
  refine ⟨h, List.nodup_singleton a, ?_⟩
  intro x hx hxa
  rw [List.mem_singleton.mp hxa] at hx
  exact ha hx

theorem mergeItems_nodup (existing : List String) (newItems : List String)
    (h : existing.Nodup) : (mergeItems existing newItems).Nodup := by
  unfold mergeItems
  generalize newItems.take 10 = l
  induction l generalizing existing with
  | nil => simpa using h
  | cons n rest ih =>
    simp only [List.foldl_cons]
    by_cases hc : n ≠ "" ∧ n ∉ existing
    · rw [if_pos hc]
      exact ih _ (nodup_append_singleton h hc.2)
    · rw [if_neg hc]
      exact ih _ h

theorem lastN_length_le {α : Type} (n : Nat) (l : List α) : (lastN n l).length ≤ n := by
  unfold lastN
  rw [List.length_drop]
  omega

theorem lastN_nodup {α : Type} (n : Nat) (l : List α) (h : l.Nodup) :
    (lastN n l).Nodup := h.sublist (List.drop_sublist _ _)

theorem lastN_suffix {α : Type} (n : Nat) (l : List α) :
    List.IsSuffix (lastN n l) l := List.drop_suffix _ _

/-- C8 (amended): merging an extraction into EXISTING project knowledge
appends only new nonempty items, so duplicate-free lists stay
duplicate-free; each merged list is then capped to its most recent 20
entries (50 contributing tickets) by keeping a suffix — FIFO eviction of
the oldest entries.  (The creation path, by contrast, seeds the lists from
the extraction's first 10 items without internal de-duplication.) -/
theorem C8_amended_knowledge_merge (kk : ProjectKnowledge) (tid : Nat)
    (decisions problems important_notes : List String)
    (h1 : kk.known_gotchas.Nodup) (h2 : kk.error_solutions.Nodup)
    (h3 : kk.architecture_decisions.Nodup) :
    ((update_project_knowledge_from_extraction (some kk) tid decisions problems important_notes).known_gotchas.Nodup ∧
      (update_project_knowledge_from_extraction (some kk) tid decisions problems important_notes).known_gotchas.length ≤ 20 ∧
      List.IsSuffix (update_project_knowledge_from_extraction (some kk) tid decisions problems important_notes).known_gotchas (mergeItems kk.known_gotchas important_notes)) ∧
    ((update_project_knowledge_from_extraction (some kk) tid decisions problems important_notes).error_solutions.Nodup ∧
      (update_project_knowledge_from_extraction (some kk) tid decisions problems important_notes).error_solutions.length ≤ 20 ∧
      List.IsSuffix (update_project_knowledge_from_extraction (some kk) tid decisions problems important_notes).error_solutions (mergeItems kk.error_solutions problems)) ∧
    ((update_project_knowledge_from_extraction (some kk) tid decisions problems important_notes).architecture_decisions.Nodup ∧
      (update_project_knowledge_from_extraction (some kk) tid decisions problems important_notes).architecture_decisions.length ≤ 20 ∧
      List.IsSuffix (update_project_knowledge_from_extraction (some kk) tid decisions problems important_notes).architecture_decisions (mergeItems kk.architecture_decisions decisions)) ∧
    (update_project_knowledge_from_extraction (some kk) tid decisions problems important_notes).learned_from_tickets.length ≤ 50 := by
  have hg : (update_project_knowledge_from_extraction (some kk) tid decisions problems important_notes).known_gotchas
      = lastN 20 (mergeItems kk.known_gotchas important_notes) := rfl
  have he : (update_project_knowledge_from_extraction (some kk) tid decisions problems important_notes).error_solutions
      = lastN 20 (mergeItems kk.error_solutions problems) := rfl
  have hd : (update_project_knowledge_from_extraction (some kk) tid decisions problems important_notes).architecture_decisions
      = lastN 20 (mergeItems kk.architecture_decisions decisions) := rfl
  have htk : (update_project_knowledge_from_extraction (some kk) tid decisions problems important_notes).learned_from_tickets
      = lastN 50 (if tid ∈ kk.learned_from_tickets then kk.learned_from_tickets
                  else kk.learned_from_tickets ++ [tid]) := rfl
  refine ⟨⟨?_, ?_, ?_⟩, ⟨?_, ?_, ?_⟩, ⟨?_, ?_, ?_⟩, ?_⟩
  · rw [hg]; exact lastN_nodup _ _ (mergeItems_nodup _ _ h1)
  · rw [hg]; exact lastN_length_le _ _
  · rw [hg]; exact lastN_suffix _ _
  · rw [he]; exact lastN_nodup _ _ (mergeItems_nodup _ _ h2)
  · rw [he]; exact lastN_length_le _ _
  · rw [he]; exact lastN_suffix _ _
  · rw [hd]; exact lastN_nodup _ _ (mergeItems_nodup _ _ h3)
  · rw [hd]; exact lastN_length_le _ _
  · rw [hd]; exact lastN_suffix _ _
  · rw [htk]; exact lastN_length_le _ _

theorem C8_amended_knowledge_merge_witness :
    (update_project_knowledge_from_extraction (some c8knowledge) 7 ["d2"] ["e1"] ["g2", ""]).known_gotchas.Nodup ∧
    (update_project_knowledge_from_extraction (some c8knowledge) 7 ["d2"] ["e1"] ["g2", ""]).known_gotchas.length ≤ 20 ∧
    List.IsSuffix (update_project_knowledge_from_extraction (some c8knowledge) 7 ["d2"] ["e1"] ["g2", ""]).known_gotchas (mergeItems c8knowledge.known_gotchas ["g2", ""]) := by
  have h := C8_amended_knowledge_merge c8knowledge 7 ["d2"] ["e1"] ["g2", ""]
    (by decide) (by decide) (by decide)
  exact h.1

/-! ## Inbox polling and the run loop (C4, C5, C9) -/

theorem all_processed_after_poll (inbox : List UserMsg) :
    ∀ m ∈ (get_pending_user_messages inbox).2, m.processed = true := by
  intro m hm
  have h2 : (get_pending_user_messages inbox).2 =
      (if inbox.filter (fun x => !x.processed) = [] then inbox
       else inbox.map (fun x =>
         if x.id ∈ (inbox.filter (fun x => !x.processed)).map UserMsg.id
         then { x with processed := true } else x)) := rfl
  rw [h2] at hm
  by_cases hp : inbox.filter (fun x => !x.processed) = []
  · rw [if_pos hp] at hm
    by_cases hmp : m.processed = true
    · exact hmp
    · have hmf : m.processed = false := by
        cases hproc : m.processed
        · rfl
        · exact absurd hproc hmp
      have hf : m ∈ inbox.filter (fun x => !x.processed) :=
        List.mem_filter.mpr ⟨hm, by rw [hmf]; rfl⟩
      rw [hp] at hf
      simp at hf
  · rw [if_neg hp] at hm
    rcases List.mem_map.mp hm with ⟨m0, hm0, hfm⟩
    by_cases hid : m0.id ∈ (inbox.filter (fun x => !x.processed)).map UserMsg.id
    · rw [← hfm, if_pos hid]
    · rw [← hfm, if_neg hid]
      by_cases hmp : m0.processed = true
      · exact hmp
      · have hmf : m0.processed = false := by
          cases hproc : m0.processed
          · rfl
          · exact absurd hproc hmp
        exact absurd
          (List.mem_map_of_mem UserMsg.id (List.mem_filter.mpr ⟨hm0, by rw [hmf]; rfl⟩))
          hid

theorem noCmdPending_of_all_processed (inbox : List UserMsg)
    (h : ∀ m ∈ inbox, m.processed = true) : NoCmdPending inbox := by
  intro m hm hp
  rw [h m hm] at hp
  exact Bool.noConfusion hp

theorem firstCommand_eq_none (l : List UserMsg)
    (h : ∀ m ∈ l, parseCmd m.content = none) : firstCommand l = none := by
  induction l with
  | nil => rfl
  | cons m rest ih =>
    unfold firstCommand
    rw [h m (List.mem_cons_self m rest)]
    exact ih (fun x hx => h x (List.mem_cons_of_mem m hx))

theorem pending_no_commands (inbox arrivals : List UserMsg)
    (h0 : NoCmdPending inbox) (ha : ∀ m ∈ arrivals, parseCmd m.content = none) :
    firstCommand (get_pending_user_messages (inbox ++ arrivals)).1 = none := by
  apply firstCommand_eq_none
  intro m hm
  have hm2 : m ∈ (inbox ++ arrivals).filter (fun x => !x.processed) := hm
  rcases List.mem_filter.mp hm2 with ⟨hmem, hfp⟩
  have hmf : m.processed = false := by
    cases hproc : m.processed
    · rfl
    · rw [hproc] at hfp
      exact absurd hfp (by decide)
  rcases List.mem_append.mp hmem with hin | hin
  · exact h0 m hin hmf
  · exact ha m hin

theorem runClaude_cons_cmd (s : Step) (rest : List Step) (inbox : List UserMsg)
    (acc : Option RunResult) (saved : List SavedMsg) (emails : Nat) (rc : Int)
    (c : Cmd)
    (hcmd : firstCommand (get_pending_user_messages (inbox ++ s.arrivals)).1 = some c) :
    runClaude (s :: rest) inbox acc saved emails rc =
      ⟨(match c with
        | Cmd.skipCmd => RunResult.skipped
        | Cmd.doneCmd => RunResult.completed
        | Cmd.stopCmd => RunResult.interrupted),
       (get_pending_user_messages (inbox ++ s.arrivals)).2, saved, emails⟩ := by
  cases c with
  | skipCmd =>
    simp only [runClaude]
    rw [hcmd]
  | doneCmd =>
    simp only [runClaude]
    rw [hcmd]
  | stopCmd =>
    simp only [runClaude]
    rw [hcmd]

theorem runClaude_cons_eof (s : Step) (rest : List Step) (inbox : List UserMsg)
    (acc : Option RunResult) (saved : List SavedMsg) (emails : Nat) (rc : Int)
    (hcmd : firstCommand (get_pending_user_messages (inbox ++ s.arrivals)).1 = none)
    (hrun : s.running = true) (heof : s.eof = true) :
    runClaude (s :: rest) inbox acc saved emails rc =
      ⟨finalResult acc rc, (get_pending_user_messages (inbox ++ s.arrivals)).2,
        saved, emails⟩ := by
  simp only [runClaude]
  rw [hcmd, hrun, heof]
  simp

theorem runClaude_cons (s : Step) (rest : List Step) (inbox : List UserMsg)
    (acc : Option RunResult) (saved : List SavedMsg) (emails : Nat) (rc : Int)
    (hcmd : firstCommand (get_pending_user_messages (inbox ++ s.arrivals)).1 = none)
    (hrun : s.running = true) (heof : s.eof = false)
    (hstk : s.stuckSeconds ≤ STUCK_TIMEOUT_MINUTES * 60) :
    runClaude (s :: rest) inbox acc saved emails rc =
      runClaude rest (get_pending_user_messages (inbox ++ s.arrivals)).2
        (match (parseEvent s.event).2 with | some r => some r | none => acc)
        (saved ++ (parseEvent s.event).1) emails rc := by
  simp only [runClaude]
  rw [hcmd, hrun, heof]
  simp only [if_true, Bool.false_eq_true, if_false]
  rw [if_neg (Nat.not_lt.mpr hstk)]

theorem runClaude_cons_stuck (s : Step) (rest : List Step) (inbox : List UserMsg)
    (acc : Option RunResult) (saved : List SavedMsg) (emails : Nat) (rc : Int)
    (hcmd : firstCommand (get_pending_user_messages (inbox ++ s.arrivals)).1 = none)
    (hrun : s.running = true) (heof : s.eof = false)
    (hstk : s.stuckSeconds > STUCK_TIMEOUT_MINUTES * 60) :
    runClaude (s :: rest) inbox acc saved emails rc =
      ⟨RunResult.stuck, (get_pending_user_messages (inbox ++ s.arrivals)).2,
        saved ++ (parseEvent s.event).1, emails + 1⟩ := by
  simp only [runClaude]
  rw [hcmd, hrun, heof]
  simp only [if_true, Bool.false_eq_true, if_false]
  rw [if_pos hstk]

theorem parseEvent_snd (e : Option Event) :
    (parseEvent e).2 = none ∨ (parseEvent e).2 = some RunResult.completed := by
  cases e with
  | none => exact Or.inl rfl
  | some ev =>
    cases ev with
    | assistant blocks =>
      simp only [parseEvent]
      by_cases h : assistantContent blocks = []
      · rw [if_pos h]
        exact Or.inl rfl
      · rw [if_neg h]
        by_cases h2 : containsCompletionMarker (assistantContent blocks) = true
        · rw [if_pos h2]
          exact Or.inr rfl
        · rw [if_neg h2]
          exact Or.inl rfl
    | result r => exact Or.inl rfl
    | error msg => exact Or.inl rfl
    | raw line => exact Or.inl rfl

theorem parseEvent_no_user_roles (e : Option Event) :
    ∀ sm ∈ (parseEvent e).1, sm.role ≠ "user" := by
  intro sm hsm
  cases e with
  | none => simp [parseEvent] at hsm
  | some ev =>
    cases ev with
    | assistant blocks =>
      simp only [parseEvent] at hsm
      by_cases h : assistantContent blocks = []
      · rw [if_pos h] at hsm
        rcases List.mem_filterMap.mp hsm with ⟨b, _, hbs⟩
        cases b with
        | text t => simp at hbs
        | toolUse name =>
          simp only [Option.some_inj] at hbs
          rw [← hbs]
          exact (by decide : ("tool_use" : String) ≠ "user")
      · rw [if_neg h] at hsm
        rcases List.mem_append.mp hsm with hin | hin
        · rcases List.mem_filterMap.mp hin with ⟨b, _, hbs⟩
          cases b with
          | text t => simp at hbs
          | toolUse name =>
            simp only [Option.some_inj] at hbs
            rw [← hbs]
            exact (by decide : ("tool_use" : String) ≠ "user")
        · rw [List.mem_singleton.mp hin]
          exact (by decide : ("assistant" : String) ≠ "user")
    | result r =>
      simp only [parseEvent] at hsm
      rw [List.mem_singleton.mp hsm]
      exact (by decide : ("tool_result" : String) ≠ "user")
    | error msg =>
      simp only [parseEvent] at hsm
      rw [List.mem_singleton.mp hsm]
      exact (by decide : ("system" : String) ≠ "user")
    | raw line => simp [parseEvent] at hsm

theorem runClaude_completed_persists (steps : List Step) : ∀ (inbox : List UserMsg)
    (saved : List SavedMsg) (emails : Nat) (rc : Int),
    (∀ s ∈ steps, Benign s) → NoCmdPending inbox →
    (runClaude steps inbox (some RunResult.completed) saved emails rc).result =
      RunResult.completed := by
  induction steps with
  | nil => intro inbox saved emails rc _ _; rfl
  | cons s rest ih =>
    intro inbox saved emails rc hb h0
    rcases hb s (List.mem_cons_self s rest) with ⟨ha, hrun, hstk⟩
    have hcmd := pending_no_commands inbox s.arrivals h0 ha
    by_cases heof : s.eof = true
    · rw [runClaude_cons_eof s rest inbox _ saved emails rc hcmd hrun heof]
      rfl
    · have heof2 : s.eof = false := by
        cases hpe : s.eof
        · rfl
        · exact absurd hpe heof
      rw [runClaude_cons s rest inbox _ saved emails rc hcmd hrun heof2 hstk]
      have hacc2 : (match (parseEvent s.event).2 with
          | some r => some r
          | none => (some RunResult.completed : Option RunResult)) =
            some RunResult.completed := by
        rcases parseEvent_snd s.event with h | h <;> rw [h]
      rw [hacc2]
      exact ih _ _ emails rc (fun x hx => hb x (List.mem_cons_of_mem s hx))
        (noCmdPending_of_all_processed _ (all_processed_after_poll _))

theorem runClaude_append_benign (pre : List Step) : ∀ (rest : List Step)
    (inbox : List UserMsg) (acc : Option RunResult) (saved : List SavedMsg)
    (emails : Nat) (rc : Int),
    (∀ s ∈ pre, Benign s ∧ s.eof = false) → NoCmdPending inbox →
    ∃ inbox2 acc2 saved2, NoCmdPending inbox2 ∧
      runClaude (pre ++ rest) inbox acc saved emails rc =
        runClaude rest inbox2 acc2 saved2 emails rc := by
  induction pre with
  | nil =>
    intro rest inbox acc saved emails rc _ h0
    exact ⟨inbox, acc, saved, h0, rfl⟩
  | cons s pre2 ih =>
    intro rest inbox acc saved emails rc hb h0
    rcases hb s (List.mem_cons_self s pre2) with ⟨⟨ha, hrun, hstk⟩, heof⟩
    have hcmd := pending_no_commands inbox s.arrivals h0 ha
    rw [List.cons_append,
      runClaude_cons s (pre2 ++ rest) inbox acc saved emails rc hcmd hrun heof hstk]
    exact ih rest _ _ _ emails rc (fun x hx => hb x (List.mem_cons_of_mem s hx))
      (noCmdPending_of_all_processed _ (all_processed_after_poll _))

/-- C5: when a run's iterations carry no control command, no external stop,
and stay within the stuck window, and some line before end-of-stream is an
assistant event whose text contains the completion marker
(case-insensitively), the run's outcome is `completed`; with no pending
user messages at the end of the run the worker then stores the ticket as
`awaiting_input` with a review deadline seven days from now and ends the
session with status `completed`. -/
theorem C5_completion_awaiting_input (pre post : List Step) (sm : Step)
    (inbox0 : List UserMsg) (rc : Int) (t : Ticket) (now : Nat)
    (blocks : List Block)
    (hpre : ∀ s ∈ pre, Benign s ∧ s.eof = false)
    (hpost : ∀ s ∈ post, Benign s)
    (hsm : Benign sm) (hsme : sm.eof = false)
    (hsmev : sm.event = some (Event.assistant blocks))
    (hmark : containsCompletionMarker (assistantContent blocks) = true)
    (h0 : NoCmdPending inbox0) :
    (runClaude (pre ++ sm :: post) inbox0 none [] 0 rc).result = RunResult.completed ∧
    process_ticket_outcome RunResult.completed [] t now =
      LoopStep.finished { t with status := "awaiting_input", result_summary := some ("Completed successfully".data), review_deadline := some (now + SEVEN_DAYS) } "completed" := by
  constructor
  · rcases runClaude_append_benign pre (sm :: post) inbox0 none [] 0 rc hpre h0 with
      ⟨inbox2, acc2, saved2, h02, heq⟩
    rw [heq]
    rcases hsm with ⟨ha, hrun, hstk⟩
    have hcmd := pending_no_commands inbox2 sm.arrivals h02 ha
    rw [runClaude_cons sm post inbox2 acc2 saved2 0 rc hcmd hrun hsme hstk]
    have hpe : (parseEvent sm.event).2 = some RunResult.completed := by
      rw [hsmev]
      simp only [parseEvent]
      have hcne : assistantContent blocks ≠ [] := by
        intro hnil
        rw [hnil] at hmark
        exact absurd hmark (by decide)
      rw [if_neg hcne]
      show (if containsCompletionMarker (assistantContent blocks) = true
        then some RunResult.completed else none) = some RunResult.completed
      rw [if_pos hmark]
    rw [hpe]
    exact runClaude_completed_persists post _ _ 0 rc hpost
      (noCmdPending_of_all_processed _ (all_processed_after_poll _))
  · have hs : summaryContent (some ("Completed successfully".data)) =
        some ("Completed successfully".data) := by
      show (if "Completed successfully".data = [] then none
        else some ("Completed successfully".data.take 1000)) = _
      rw [if_neg (by decide), List.take_of_length_le (by decide)]
    show LoopStep.finished (update_ticket t "done" (some ("Completed successfully".data)) now)
        "completed" = _
    unfold update_ticket
    rw [if_pos rfl, hs]

theorem C5_completion_awaiting_input_witness :
    (runClaude [c5step] [] none [] 0 1).result = RunResult.completed ∧
    process_ticket_outcome RunResult.completed [] c5ticket 0 =
      LoopStep.finished { c5ticket with status := "awaiting_input", result_summary := some ("Completed successfully".data), review_deadline := some (0 + SEVEN_DAYS) } "completed" :=
  C5_completion_awaiting_input [] [] c5step [] 1 c5ticket 0 c5blocks
    (by simp) (by simp)
    (by refine ⟨fun m hm => ?_, rfl, by decide⟩; simp [c5step] at hm)
    rfl rfl (by decide) (fun m hm => by simp at hm)

/-- C9: when the run's iterations carry no control command and no external
stop, and an iteration's elapsed time since the last persisted activity
exceeds the stuck window, the run terminates at that iteration with outcome
`stuck` having sent exactly one notification email (never zero, never more
than one); the worker then sets the ticket to `stuck` and ends the session
with status `stuck`. -/
theorem C9_stuck_notification (pre rest : List Step) (s : Step)
    (inbox0 : List UserMsg) (rc : Int) (t : Ticket) (now : Nat)
    (pendingAfter : List UserMsg)
    (hpre : ∀ x ∈ pre, Benign x ∧ x.eof = false)
    (ha : ∀ m ∈ s.arrivals, parseCmd m.content = none)
    (hrun : s.running = true) (heof : s.eof = false)
    (hstk : s.stuckSeconds > STUCK_TIMEOUT_MINUTES * 60)
    (h0 : NoCmdPending inbox0) :
    (runClaude (pre ++ s :: rest) inbox0 none [] 0 rc).result = RunResult.stuck ∧
    (runClaude (pre ++ s :: rest) inbox0 none [] 0 rc).emails = 1 ∧
    process_ticket_outcome RunResult.stuck pendingAfter t now =
      LoopStep.finished { t with status := "stuck", result_summary := none } "stuck" := by
  rcases runClaude_append_benign pre (s :: rest) inbox0 none [] 0 rc hpre h0 with
    ⟨inbox2, acc2, saved2, h02, heq⟩
  have hcmd := pending_no_commands inbox2 s.arrivals h02 ha
  have hstep := runClaude_cons_stuck s rest inbox2 acc2 saved2 0 rc hcmd hrun heof hstk
  refine ⟨?_, ?_, ?_⟩
  · rw [heq, hstep]
  · rw [heq, hstep]
  · show LoopStep.finished (update_ticket t "stuck" none now) "stuck" = _
    unfold update_ticket
    rw [if_neg (by decide : ¬ ("stuck" : String) = "done")]
    rfl

theorem C9_stuck_notification_witness :
    (runClaude [c9step] [] none [] 0 0).result = RunResult.stuck ∧
    (runClaude [c9step] [] none [] 0 0).emails = 1 ∧
    process_ticket_outcome RunResult.stuck [] c5ticket 0 =
      LoopStep.finished { c5ticket with status := "stuck", result_summary := none } "stuck" :=
  C9_stuck_notification [] [] c9step [] 0 c5ticket 0 [] (by simp)
    (fun m hm => by simp [c9step] at hm) rfl rfl (by decide)
    (fun m hm => by simp at hm)

/-- C4 counterexample: a non-command user message ("hello") present in the
inbox when the runner polls is marked processed and then silently dropped:
the run simply continues (finishing with `success` here) and NO
conversation message is appended during the run — contradicting the claim
that such content is appended as user feedback. -/
theorem C4_cex :
    (runClaude [c4plainStep] [c4msg] none [] 0 0).saved = [] ∧
    (runClaude [c4plainStep] [c4msg] none [] 0 0).inbox = [⟨1, "hello".data, true⟩] ∧
    (runClaude [c4plainStep] [c4msg] none [] 0 0).result = RunResult.success := by
  refine ⟨?_, ?_, ?_⟩ <;> rfl

/-- C4 (amended): each poll marks every unprocessed message processed; a
first control command of `/skip`, `/done` or `/stop` terminates the run
immediately with outcome `skipped`, `completed` or `interrupted`
respectively (an `interrupted` run with no later feedback ends the session
`stopped` and reopens the ticket); and when no control command is pending
the run continues with NO user-feedback message appended — non-command
content consumed by the poll is dropped. -/
theorem C4_amended_poll_semantics (s : Step) (rest : List Step)
    (inbox : List UserMsg) (acc : Option RunResult) (saved : List SavedMsg)
    (emails : Nat) (rc : Int) (t : Ticket) (now : Nat) :
    (∀ m ∈ (get_pending_user_messages (inbox ++ s.arrivals)).2, m.processed = true) ∧
    (firstCommand (get_pending_user_messages (inbox ++ s.arrivals)).1 = some Cmd.skipCmd →
      runClaude (s :: rest) inbox acc saved emails rc =
        ⟨RunResult.skipped, (get_pending_user_messages (inbox ++ s.arrivals)).2, saved, emails⟩) ∧
    (firstCommand (get_pending_user_messages (inbox ++ s.arrivals)).1 = some Cmd.doneCmd →
      runClaude (s :: rest) inbox acc saved emails rc =
        ⟨RunResult.completed, (get_pending_user_messages (inbox ++ s.arrivals)).2, saved, emails⟩) ∧
    (firstCommand (get_pending_user_messages (inbox ++ s.arrivals)).1 = some Cmd.stopCmd →
      runClaude (s :: rest) inbox acc saved emails rc =
        ⟨RunResult.interrupted, (get_pending_user_messages (inbox ++ s.arrivals)).2, saved, emails⟩ ∧
      process_ticket_outcome RunResult.interrupted [] t now =
        LoopStep.finished { t with status := "open", result_summary := none } "stopped") ∧
    (firstCommand (get_pending_user_messages (inbox ++ s.arrivals)).1 = none →
      s.running = true → s.eof = false →
      s.stuckSeconds ≤ STUCK_TIMEOUT_MINUTES * 60 →
      runClaude (s :: rest) inbox acc saved emails rc =
        runClaude rest (get_pending_user_messages (inbox ++ s.arrivals)).2
          (match (parseEvent s.event).2 with | some r => some r | none => acc)
          (saved ++ (parseEvent s.event).1) emails rc ∧
      ∀ sm ∈ (parseEvent s.event).1, sm.role ≠ "user") := by
  refine ⟨all_processed_after_poll _, ?_, ?_, ?_, ?_⟩
  · intro h
    exact runClaude_cons_cmd s rest inbox acc saved emails rc Cmd.skipCmd h
  · intro h
    exact runClaude_cons_cmd s rest inbox acc saved emails rc Cmd.doneCmd h
  · intro h
    refine ⟨runClaude_cons_cmd s rest inbox acc saved emails rc Cmd.stopCmd h, ?_⟩
    show LoopStep.finished (update_ticket t "open" none now) "stopped" = _
    unfold update_ticket
    rw [if_neg (by decide : ¬ ("open" : String) = "done")]
    rfl
  · intro hcmd hrun heof hstk
    exact ⟨runClaude_cons s rest inbox acc saved emails rc hcmd hrun heof hstk,
      parseEvent_no_user_roles s.event⟩

theorem C4_amended_poll_semantics_witness :
    runClaude [c4stopStep] [] none [] 0 0 =
      ⟨RunResult.interrupted, [⟨2, "/stop".data, true⟩], [], 0⟩ := by
  have h := (C4_amended_poll_semantics c4stopStep [] [] none [] 0 0 c5ticket 0).2.2.2.1
    (by decide)
  exact h.1.trans (by decide)
